import Mathlib

/-!
Verification of the nacos registry adapter (contrib/registry/nacos/registry.go).

The adapter translates a framework ServiceInstance (name, version, metadata,
endpoint URLs) into calls on an external naming client.  We embed the Go code
as pure Lean functions: the external client is a record of response functions,
and Register / Deregister / GetService return the trace of calls issued to the
client together with the Go function's error result.

The Go standard-library helpers used by the adapter (net/url.Parse,
net.SplitHostPort, strconv.Atoi) are modelled below.  The url.Parse model is
restricted to the shapes reachable from endpoint strings: userinfo is split
off without validation, and IPv6 zone identifiers inside brackets are not
specially decoded; everything else (scheme grammar, fragment/query stripping,
authority extraction, port validation, percent-escape validation, the
control-character and first-path-segment checks) follows the Go source.
-/

deriving instance DecidableEq for Except

/-- Errors produced by the adapter or by the modelled standard library,
mirroring the Go error values involved. -/
inductive GoError where
  | serviceInstanceNameEmpty : GoError
  | urlError (op url err : String) : GoError
  | addrError (err addr : String) : GoError
  | numError (fn num err : String) : GoError
  | wrapped (msg : String) : GoError
  | clientErr (msg : String) : GoError
deriving DecidableEq

/-- First index of a character in a list, if any. -/
def firstIdx (c : Char) : List Char → Option Nat
  | [] => none
  | x :: xs => if x = c then some 0 else (firstIdx c xs).map (· + 1)

/-- Last index of a character in a list, if any. -/
def lastIdx (c : Char) : List Char → Option Nat
  | [] => none
  | x :: xs =>
    match lastIdx c xs with
    | some i => some (i + 1)
    | none => if x = c then some 0 else none

/-- Control bytes rejected by Go url parsing (b < 0x20 or b = 0x7f). -/
def isCtl (c : Char) : Bool := c.toNat < 0x20 || c.toNat == 0x7f

/-- Hex digit value, as in Go net/url unhex. -/
def hexVal (c : Char) : Option Nat :=
  if c.isDigit then some (c.toNat - 48)
  else if 'a' ≤ c ∧ c ≤ 'f' then some (c.toNat - 87)
  else if 'A' ≤ c ∧ c ≤ 'F' then some (c.toNat - 55)
  else none

/-- Percent-escape decoding, as in Go net/url unescape: every percent sign
must be followed by two hex digits; other characters pass through. -/
def unescapePercent : List Char → Option (List Char)
  | [] => some []
  | '%' :: a :: b :: rest => do
    let ha ← hexVal a
    let hb ← hexVal b
    let r ← unescapePercent rest
    pure (Char.ofNat (16 * ha + hb) :: r)
  | '%' :: _ => none
  | c :: rest => (unescapePercent rest).map (c :: ·)

/-- Go net/url validOptionalPort: empty, or a colon followed by digits only. -/
def validOptionalPort : List Char → Bool
  | [] => true
  | ':' :: rest => rest.all (·.isDigit)
  | _ => false

/-- Go net/url getScheme: scan for a scheme followed by a colon.  Returns
some (scheme, rest) when a scheme is present, none when the input has no
scheme (the caller keeps the whole input), and an error for a leading colon.
The accumulator holds the scheme characters read so far, reversed. -/
def getSchemeCore : List Char → List Char → Except String (Option (List Char × List Char))
  | _, [] => .ok none
  | acc, c :: rest =>
    if c = ':' then
      if acc.isEmpty then .error "missing protocol scheme"
      else .ok (some (acc.reverse, rest))
    else if c.isAlpha then getSchemeCore (c :: acc) rest
    else if (c.isDigit || c = '+' || c = '-' || c = '.') && !acc.isEmpty then
      getSchemeCore (c :: acc) rest
    else .ok none

/-- Segment of an authority after the last at sign (Go parseAuthority keeps
the part after the last at sign as the host; userinfo is not validated in
this restricted model). -/
def afterLastAt (cs : List Char) : List Char :=
  match lastIdx '@' cs with
  | some i => cs.drop (i + 1)
  | none => cs

/-- Go net/url parseHost: bracketed-host and optional-port validation, then
percent-escape decoding of the whole host. -/
def parseHost (raw : String) (host : List Char) : Except GoError String :=
  if host.head? = some '[' then
    match lastIdx ']' host with
    | none => .error (.urlError "parse" raw "missing ']' in host")
    | some i =>
      let colonPort := host.drop (i + 1)
      if validOptionalPort colonPort then
        match unescapePercent host with
        | some u => .ok (String.mk u)
        | none => .error (.urlError "parse" raw "invalid URL escape")
      else
        .error (.urlError "parse" raw ("invalid port \"" ++ String.mk colonPort ++ "\" after host"))
  else
    let portOk :=
      match lastIdx ':' host with
      | none => true
      | some i => validOptionalPort (host.drop i)
    if portOk then
      match unescapePercent host with
      | some u => .ok (String.mk u)
      | none => .error (.urlError "parse" raw "invalid URL escape")
    else
      let i := (lastIdx ':' host).getD 0
      .error (.urlError "parse" raw ("invalid port \"" ++ String.mk (host.drop i) ++ "\" after host"))

/-- The two URL fields read by the adapter. -/
structure URL where
  Scheme : String
  Host : String
deriving DecidableEq

/-- Model of Go net/url.Parse (see the file header for the restriction).
Splits off the fragment, rejects control characters, extracts and lowercases
the scheme, strips the query, and either returns an opaque URL (empty host),
parses the authority into a host, or treats the rest as a path, validating
percent escapes where the Go code does. -/
def urlParse (raw : String) : Except GoError URL :=
  let cs := raw.data
  let noFrag := cs.takeWhile (· ≠ '#')
  let frag := (cs.drop noFrag.length).drop 1
  if noFrag.any isCtl then
    .error (.urlError "parse" raw "net/url: invalid control character in URL")
  else
    match getSchemeCore [] noFrag with
    | .error m => .error (.urlError "parse" raw m)
    | .ok res =>
      let scheme : String :=
        match res with
        | some (s, _) => String.mk (s.map Char.toLower)
        | none => ""
      let rest0 : List Char :=
        match res with
        | some (_, r) => r
        | none => noFrag
      let rest := rest0.takeWhile (· ≠ '?')
      let finish : String → Except GoError URL := fun host =>
        if frag ≠ [] ∧ (unescapePercent frag).isNone then
          .error (.urlError "parse" raw "invalid URL escape")
        else .ok { Scheme := scheme, Host := host }
      if rest.head? ≠ some '/' ∧ scheme ≠ "" then
        finish ""
      else if rest.head? ≠ some '/' ∧ (rest.takeWhile (· ≠ '/')).contains ':' then
        .error (.urlError "parse" raw "first path segment in URL cannot contain colon")
      else if rest.take 2 = ['/', '/'] ∧ (scheme ≠ "" ∨ rest.take 3 ≠ ['/', '/', '/']) then
        let authority := (rest.drop 2).takeWhile (· ≠ '/')
        let pathPart := (rest.drop 2).drop authority.length
        match parseHost raw (afterLastAt authority) with
        | .error e => .error e
        | .ok h =>
          if (unescapePercent pathPart).isNone then
            .error (.urlError "parse" raw "invalid URL escape")
          else finish h
      else
        if (unescapePercent rest).isNone then
          .error (.urlError "parse" raw "invalid URL escape")
        else finish ""

/-- Model of Go net.SplitHostPort: split host and port at the last colon,
with bracketed-host handling and the same error cases as the Go source. -/
def splitHostPort (hostPort : String) : Except GoError (String × String) :=
  let cs := hostPort.data
  match lastIdx ':' cs with
  | none => .error (.addrError "missing port in address" hostPort)
  | some i =>
    if cs.head? = some '[' then
      match firstIdx ']' cs with
      | none => .error (.addrError "missing ']' in address" hostPort)
      | some e =>
        if e + 1 = cs.length then .error (.addrError "missing port in address" hostPort)
        else if e + 1 = i then
          if (cs.drop 1).contains '[' then .error (.addrError "unexpected '['" hostPort)
          else if (cs.drop (e + 1)).contains ']' then .error (.addrError "unexpected ']'" hostPort)
          else .ok (String.mk ((cs.drop 1).take (e - 1)), String.mk (cs.drop (i + 1)))
        else
          if cs[e + 1]? = some ':' then .error (.addrError "too many colons in address" hostPort)
          else .error (.addrError "missing port in address" hostPort)
    else
      if (cs.take i).contains ':' then .error (.addrError "too many colons in address" hostPort)
      else if cs.contains '[' then .error (.addrError "unexpected '['" hostPort)
      else if cs.contains ']' then .error (.addrError "unexpected ']'" hostPort)
      else .ok (String.mk (cs.take i), String.mk (cs.drop (i + 1)))

/-- Model of Go strconv.Atoi (ParseInt base 10, 64-bit int): optional sign,
decimal digits, syntax error otherwise, range error outside int64. -/
def atoi (s : String) : Except GoError Int :=
  let cs := s.data
  let signAndDigits : Bool × List Char :=
    match cs with
    | '+' :: rest => (false, rest)
    | '-' :: rest => (true, rest)
    | _ => (false, cs)
  let neg := signAndDigits.1
  let ds := signAndDigits.2
  if ds.isEmpty || ds.any (fun c => !c.isDigit) then
    .error (.numError "Atoi" s "invalid syntax")
  else
    let n : Nat := ds.foldl (fun acc c => acc * 10 + (c.toNat - 48)) 0
    let v : Int := if neg then -(n : Int) else (n : Int)
    if v < -(2 ^ 63) ∨ (2 ^ 63 - 1) < v then .error (.numError "Atoi" s "value out of range")
    else .ok v

/-- Go conversion uint64(p) from a (64-bit) int. -/
def uint64OfInt (p : Int) : Nat := (p % (2 ^ 64 : Int)).toNat

/-- Association-list model of a Go string-to-string map (keys unique).
Assignment replaces the value at an existing key or appends a new binding. -/
def mapInsert : List (String × String) → String → String → List (String × String)
  | [], k, v => [(k, v)]
  | p :: rest, k, v => if p.1 = k then (k, v) :: rest else p :: mapInsert rest k v

/-- Map indexing: the value bound to a key, if any. -/
def mapLookup (m : List (String × String)) (k : String) : Option String :=
  (m.find? (fun p => p.1 = k)).map (·.2)

/-- The metadata built by Register for one endpoint: start from
kind = scheme and version = instance version, then assign every entry of the
instance metadata over it. -/
def mergeMeta (scheme version : String) (md : List (String × String)) : List (String × String) :=
  md.foldl (fun acc kv => mapInsert acc kv.1 kv.2) [("kind", scheme), ("version", version)]

/-- Framework registry.ServiceInstance, the fields the adapter reads. -/
structure ServiceInstance where
  ID : String
  Name : String
  Version : String
  Metadata : List (String × String)
  Endpoints : List String
deriving DecidableEq

/-- nacos vo.RegisterInstanceParam, the fields the adapter sets.
Weight is a Go float64; the adapter only passes the configured value through,
so it is modelled as a rational number. -/
structure RegisterInstanceParam where
  Ip : String
  Port : Nat
  ServiceName : String
  Weight : Rat
  Enable : Bool
  Healthy : Bool
  Ephemeral : Bool
  Metadata : List (String × String)
  ClusterName : String
  GroupName : String
deriving DecidableEq

/-- nacos vo.DeregisterInstanceParam, the fields the adapter sets. -/
structure DeregisterInstanceParam where
  Ip : String
  Port : Nat
  ServiceName : String
  GroupName : String
  Cluster : String
  Ephemeral : Bool
deriving DecidableEq

/-- nacos vo.SelectInstancesParam; GetService leaves Clusters at its zero
value, so the model records it with default nil. -/
structure SelectInstancesParam where
  ServiceName : String
  GroupName : String
  Clusters : List String := []
  HealthyOnly : Bool
deriving DecidableEq

/-- nacos model.Instance, the fields the adapter reads (Port is uint64). -/
structure Instance where
  InstanceId : String
  ServiceName : String
  Ip : String
  Port : Nat
  Healthy : Bool
  Metadata : List (String × String)
deriving DecidableEq

/-- The external naming client, modelled as its response behavior: each
operation maps the parameter it is called with to the Go result pair
(success/list, error).  The trace of calls is produced by the adapter
functions themselves. -/
structure INamingClient where
  RegisterInstance : RegisterInstanceParam → Except String Bool
  DeregisterInstance : DeregisterInstanceParam → Except String Bool
  SelectInstances : SelectInstancesParam → Except String (List Instance)

/-- One call issued to the external client. -/
inductive Call where
  | register (p : RegisterInstanceParam) : Call
  | deregister (p : DeregisterInstanceParam) : Call
  | select (p : SelectInstancesParam) : Call
deriving DecidableEq

/-- Adapter options (Go struct options).  The Go field named like the word
for a namespace-path start is called pfx here because that word is a Lean
keyword. -/
structure options where
  pfx : String
  weight : Rat
  cluster : String
  group : String
  kind : String
deriving DecidableEq

/-- Go type Option func(o *options), modelled as an endomorphism. -/
def AdapterOption : Type := options → options

/-- WithPrefix option (field renamed, see options.pfx). -/
def WithPfx (p : String) : AdapterOption := fun o => { o with pfx := p }

/-- WithWeight option. -/
def WithWeight (weight : Rat) : AdapterOption := fun o => { o with weight := weight }

/-- WithCluster option. -/
def WithCluster (cluster : String) : AdapterOption := fun o => { o with cluster := cluster }

/-- WithGroup option. -/
def WithGroup (group : String) : AdapterOption := fun o => { o with group := group }

/-- WithDefaultKind option. -/
def WithDefaultKind (kind : String) : AdapterOption := fun o => { o with kind := kind }

/-- nacos SDK constant.DEFAULT_GROUP. -/
def DEFAULT_GROUP : String := "DEFAULT_GROUP"

/-- The adapter: configured options plus the injected client. -/
structure Registry where
  opts : options
  cli : INamingClient

/-- Constructor New: defaults overridden by the given options, in order. -/
def New (cli : INamingClient) (opts : List AdapterOption) : Registry :=
  { opts := opts.foldl (fun o f => f o)
      { pfx := "/microservices", cluster := "DEFAULT", group := DEFAULT_GROUP,
        weight := 100, kind := "grpc" },
    cli := cli }

/-- The vo.RegisterInstanceParam literal built in the Register loop body for
one endpoint, given the parsed scheme, host and port. -/
def mkRegisterParam (r : Registry) (si : ServiceInstance) (scheme host : String) (p : Int) :
    RegisterInstanceParam :=
  { Ip := host,
    Port := uint64OfInt p,
    ServiceName := si.Name ++ "." ++ scheme,
    Weight := r.opts.weight,
    Enable := true,
    Healthy := true,
    Ephemeral := true,
    Metadata := mergeMeta scheme si.Version si.Metadata,
    ClusterName := r.opts.cluster,
    GroupName := r.opts.group }

/-- The loop body of Register over the endpoint list: per endpoint, parse the
URL, split host and port, parse the port, call the client; any error returns
immediately (a failed client call is still a call that was issued, so it
appears in the trace); a client error is wrapped with the endpoint. -/
def registerEndpoints (r : Registry) (si : ServiceInstance) :
    List String → List Call × Option GoError
  | [] => ([], none)
  | endpoint :: rest =>
    match urlParse endpoint with
    | .error e => ([], some e)
    | .ok u =>
      match splitHostPort u.Host with
      | .error e => ([], some e)
      | .ok (host, port) =>
        match atoi port with
        | .error e => ([], some e)
        | .ok p =>
          let param := mkRegisterParam r si u.Scheme host p
          match r.cli.RegisterInstance param with
          | .error msg =>
            ([Call.register param],
              some (.wrapped ("RegisterInstance err: " ++ msg ++ ", " ++ endpoint)))
          | .ok _ =>
            (Call.register param :: (registerEndpoints r si rest).1,
              (registerEndpoints r si rest).2)

/-- Register: reject an empty instance name, then process the endpoints. -/
def Register (r : Registry) (si : ServiceInstance) : List Call × Option GoError :=
  if si.Name = "" then ([], some .serviceInstanceNameEmpty)
  else registerEndpoints r si si.Endpoints

/-- The vo.DeregisterInstanceParam literal built in the Deregister loop body. -/
def mkDeregisterParam (r : Registry) (service : ServiceInstance) (scheme host : String)
    (p : Int) : DeregisterInstanceParam :=
  { Ip := host,
    Port := uint64OfInt p,
    ServiceName := service.Name ++ "." ++ scheme,
    GroupName := r.opts.group,
    Cluster := r.opts.cluster,
    Ephemeral := true }

/-- The loop body of Deregister over the endpoint list; a client error is
returned unwrapped. -/
def deregisterEndpoints (r : Registry) (service : ServiceInstance) :
    List String → List Call × Option GoError
  | [] => ([], none)
  | endpoint :: rest =>
    match urlParse endpoint with
    | .error e => ([], some e)
    | .ok u =>
      match splitHostPort u.Host with
      | .error e => ([], some e)
      | .ok (host, port) =>
        match atoi port with
        | .error e => ([], some e)
        | .ok p =>
          let param := mkDeregisterParam r service u.Scheme host p
          match r.cli.DeregisterInstance param with
          | .error msg => ([Call.deregister param], some (.clientErr msg))
          | .ok _ =>
            (Call.deregister param :: (deregisterEndpoints r service rest).1,
              (deregisterEndpoints r service rest).2)

/-- Deregister: no name validation, just the endpoint loop. -/
def Deregister (r : Registry) (service : ServiceInstance) : List Call × Option GoError :=
  deregisterEndpoints r service service.Endpoints

/-- Reconstruction of one generic ServiceInstance from a naming-service
record, as in the GetService loop body: kind from the record metadata with
the configured default as fallback, version from the metadata (empty when
absent, the Go map zero value), single reconstructed endpoint. -/
def instanceToService (r : Registry) (i : Instance) : ServiceInstance :=
  let kind :=
    match mapLookup i.Metadata "kind" with
    | some k => k
    | none => r.opts.kind
  { ID := i.InstanceId,
    Name := i.ServiceName,
    Version := (mapLookup i.Metadata "version").getD "",
    Metadata := i.Metadata,
    Endpoints := [kind ++ "://" ++ i.Ip ++ ":" ++ toString i.Port] }

/-- GetService: one SelectInstances query with HealthyOnly true under the
configured group; on success every record is converted. -/
def GetService (r : Registry) (serviceName : String) :
    List Call × Except GoError (List ServiceInstance) :=
  let param : SelectInstancesParam :=
    { ServiceName := serviceName, GroupName := r.opts.group, HealthyOnly := true }
  match r.cli.SelectInstances param with
  | .error e => ([Call.select param], .error (.clientErr e))
  | .ok res => ([Call.select param], .ok (res.map (instanceToService r)))

/-- The endpoint-validation pipeline shared by Register and Deregister:
URL parse, host-port split, port parse, in that order, with the first
failure's error. -/
def endpointParts (e : String) : Except GoError (String × String × Int) :=
  match urlParse e with
  | .error err => .error err
  | .ok u =>
    match splitHostPort u.Host with
    | .error err => .error err
    | .ok (host, port) =>
      match atoi port with
      | .error err => .error err
      | .ok p => .ok (u.Scheme, host, p)

/-- The register call parameter Register issues for an endpoint (junk values
when the endpoint does not validate; Register issues no call then). -/
def registerParamOf (r : Registry) (si : ServiceInstance) (e : String) : RegisterInstanceParam :=
  match endpointParts e with
  | .ok (s, h, p) => mkRegisterParam r si s h p
  | .error _ => mkRegisterParam r si "" "" 0

/-- The deregister call parameter Deregister issues for an endpoint. -/
def deregisterParamOf (r : Registry) (service : ServiceInstance) (e : String) :
    DeregisterInstanceParam :=
  match endpointParts e with
  | .ok (s, h, p) => mkDeregisterParam r service s h p
  | .error _ => mkDeregisterParam r service "" "" 0

/-- The scheme of a validating endpoint (empty otherwise). -/
def schemeOf (e : String) : String :=
  match endpointParts e with
  | .ok (s, _, _) => s
  | .error _ => ""

/-- An endpoint is canonical when it validates and printing the parsed
scheme, host and registered port reproduces it exactly. -/
def canonicalEndpoint (e : String) : Bool :=
  match endpointParts e with
  | .ok (s, h, p) => s ++ "://" ++ h ++ ":" ++ toString (uint64OfInt p) == e
  | .error _ => false

/-- A client whose calls all succeed. -/
def alwaysOkClient : INamingClient :=
  { RegisterInstance := fun _ => .ok true,
    DeregisterInstance := fun _ => .ok true,
    SelectInstances := fun _ => .ok [] }

/-- The naming-service record a register call creates in a faithful
in-memory store. -/
def instOfRegParam (p : RegisterInstanceParam) : Instance :=
  { InstanceId := "", ServiceName := p.ServiceName, Ip := p.Ip, Port := p.Port,
    Healthy := p.Healthy, Metadata := p.Metadata }

/-- The store contents after a trace of calls: one (group, record) entry per
register call. -/
def storeOfCalls : List Call → List (String × Instance)
  | [] => []
  | Call.register p :: rest => (p.GroupName, instOfRegParam p) :: storeOfCalls rest
  | _ :: rest => storeOfCalls rest

/-- A faithful in-memory store as a client: SelectInstances returns the
stored records matching the queried group and service name (and the healthy
filter when requested). -/
def fakeSelectClient (store : List (String × Instance)) : INamingClient :=
  { RegisterInstance := fun _ => .ok true,
    DeregisterInstance := fun _ => .ok true,
    SelectInstances := fun q =>
      .ok (((store.filter (fun gi =>
        gi.1 == q.GroupName && gi.2.ServiceName == q.ServiceName &&
          (!q.HealthyOnly || gi.2.Healthy))).map (·.2))) }

/-- A client whose register calls fail exactly for the service name a.http,
with the Go error text boom. -/
def failHttpClient : INamingClient :=
  { RegisterInstance := fun p =>
      if p.ServiceName = "a.http" then .error "boom" else .ok true,
    DeregisterInstance := fun _ => .ok true,
    SelectInstances := fun _ => .ok [] }

/-- A client answering every instance query with two fixed records, one
without a kind metadata key and one with kind and version set. -/
def twoRecClient : INamingClient :=
  { RegisterInstance := fun _ => .ok true,
    DeregisterInstance := fun _ => .ok true,
    SelectInstances := fun _ =>
      .ok [{ InstanceId := "i1", ServiceName := "svc.grpc", Ip := "1.2.3.4", Port := 9000,
             Healthy := true, Metadata := [] },
           { InstanceId := "i2", ServiceName := "svc.grpc", Ip := "1.2.3.5", Port := 8000,
             Healthy := true, Metadata := [("kind", "http"), ("version", "2")] }] }

/-- A validating endpoint yields some parsed scheme, host and port. -/
theorem endpointParts_ok_exists (e : String) (h : (endpointParts e).isOk = true) :
    ∃ s hs p, endpointParts e = .ok (s, hs, p) := by
  cases he : endpointParts e with
  | error err => rw [he] at h; simp [Except.isOk, Except.toBool] at h
  | ok v => obtain ⟨s, hs, p⟩ := v; exact ⟨s, hs, p, rfl⟩

/-- Unfolding of the Register loop on a validating head endpoint. -/
theorem registerEndpoints_cons_ok (r : Registry) (si : ServiceInstance) (e : String)
    (rest : List String) (s h : String) (p : Int)
    (hp : endpointParts e = .ok (s, h, p)) :
    registerEndpoints r si (e :: rest) =
      match r.cli.RegisterInstance (mkRegisterParam r si s h p) with
      | .error msg =>
        ([Call.register (mkRegisterParam r si s h p)],
          some (.wrapped ("RegisterInstance err: " ++ msg ++ ", " ++ e)))
      | .ok _ =>
        (Call.register (mkRegisterParam r si s h p) :: (registerEndpoints r si rest).1,
          (registerEndpoints r si rest).2) := by
  unfold endpointParts at hp
  cases hu : urlParse e with
  | error err => rw [hu] at hp; dsimp only at hp; simp at hp
  | ok u =>
    rw [hu] at hp; dsimp only at hp
    cases hs : splitHostPort u.Host with
    | error err => rw [hs] at hp; dsimp only at hp; simp at hp
    | ok hostport =>
      obtain ⟨host, port⟩ := hostport
      rw [hs] at hp; dsimp only at hp
      cases ha : atoi port with
      | error err => rw [ha] at hp; dsimp only at hp; simp at hp
      | ok p0 =>
        rw [ha] at hp; dsimp only at hp
        simp only [Except.ok.injEq, Prod.mk.injEq] at hp
        obtain ⟨h1, h2, h3⟩ := hp
        subst h1; subst h2; subst h3
        simp [registerEndpoints, hu, hs, ha]

/-- Unfolding of the Register loop on a non-validating head endpoint:
no call is issued and the validation error is returned. -/
theorem registerEndpoints_cons_err (r : Registry) (si : ServiceInstance) (e : String)
    (rest : List String) (err : GoError) (hp : endpointParts e = .error err) :
    registerEndpoints r si (e :: rest) = ([], some err) := by
  unfold endpointParts at hp
  cases hu : urlParse e with
  | error e0 =>
    rw [hu] at hp; dsimp only at hp
    simp only [Except.error.injEq] at hp
    subst hp
    simp [registerEndpoints, hu]
  | ok u =>
    rw [hu] at hp; dsimp only at hp
    cases hs : splitHostPort u.Host with
    | error e0 =>
      rw [hs] at hp; dsimp only at hp
      simp only [Except.error.injEq] at hp
      subst hp
      simp [registerEndpoints, hu, hs]
    | ok hostport =>
      obtain ⟨host, port⟩ := hostport
      rw [hs] at hp; dsimp only at hp
      cases ha : atoi port with
      | error e0 =>
        rw [ha] at hp; dsimp only at hp
        simp only [Except.error.injEq] at hp
        subst hp
        simp [registerEndpoints, hu, hs, ha]
      | ok p0 => rw [ha] at hp; dsimp only at hp; simp at hp

/-- The Register loop on a list whose first part validates and registers
successfully: those calls are issued in order, and the loop continues on the
remainder. -/
theorem registerEndpoints_append (r : Registry) (si : ServiceInstance)
    (pre l2 : List String)
    (hok : ∀ e ∈ pre, (endpointParts e).isOk = true ∧
      ∃ b, r.cli.RegisterInstance (registerParamOf r si e) = .ok b) :
    registerEndpoints r si (pre ++ l2) =
      (pre.map (fun e => Call.register (registerParamOf r si e)) ++
        (registerEndpoints r si l2).1,
       (registerEndpoints r si l2).2) := by
  induction pre with
  | nil => simp
  | cons e pre ih =>
    obtain ⟨hparts, b, hb⟩ := hok e (by simp)
    obtain ⟨s, hs, p, hsp⟩ := endpointParts_ok_exists e hparts
    have hparam : registerParamOf r si e = mkRegisterParam r si s hs p := by
      simp [registerParamOf, hsp]
    rw [List.cons_append, registerEndpoints_cons_ok r si e (pre ++ l2) s hs p hsp]
    rw [hparam] at hb
    rw [hb]
    rw [ih (fun e' he' => hok e' (by simp [he']))]
    simp [hparam]

/-- The Register loop when every endpoint validates and every client call
succeeds: exactly one register call per endpoint, in order, and no error. -/
theorem registerEndpoints_ok (r : Registry) (si : ServiceInstance) (eps : List String)
    (hok : ∀ e ∈ eps, (endpointParts e).isOk = true ∧
      ∃ b, r.cli.RegisterInstance (registerParamOf r si e) = .ok b) :
    registerEndpoints r si eps =
      (eps.map (fun e => Call.register (registerParamOf r si e)), none) := by
  have h := registerEndpoints_append r si eps [] hok
  simpa [registerEndpoints] using h

/-- Unfolding of the Deregister loop on a validating head endpoint. -/
theorem deregisterEndpoints_cons_ok (r : Registry) (si : ServiceInstance) (e : String)
    (rest : List String) (s h : String) (p : Int)
    (hp : endpointParts e = .ok (s, h, p)) :
    deregisterEndpoints r si (e :: rest) =
      match r.cli.DeregisterInstance (mkDeregisterParam r si s h p) with
      | .error msg => ([Call.deregister (mkDeregisterParam r si s h p)], some (.clientErr msg))
      | .ok _ =>
        (Call.deregister (mkDeregisterParam r si s h p) :: (deregisterEndpoints r si rest).1,
          (deregisterEndpoints r si rest).2) := by
  unfold endpointParts at hp
  cases hu : urlParse e with
  | error err => rw [hu] at hp; dsimp only at hp; simp at hp
  | ok u =>
    rw [hu] at hp; dsimp only at hp
    cases hs : splitHostPort u.Host with
    | error err => rw [hs] at hp; dsimp only at hp; simp at hp
    | ok hostport =>
      obtain ⟨host, port⟩ := hostport
      rw [hs] at hp; dsimp only at hp
      cases ha : atoi port with
      | error err => rw [ha] at hp; dsimp only at hp; simp at hp
      | ok p0 =>
        rw [ha] at hp; dsimp only at hp
        simp only [Except.ok.injEq, Prod.mk.injEq] at hp
        obtain ⟨h1, h2, h3⟩ := hp
        subst h1; subst h2; subst h3
        simp [deregisterEndpoints, hu, hs, ha]

/-- The Deregister loop when every endpoint validates and every client call
succeeds: exactly one deregister call per endpoint, in order, no error. -/
theorem deregisterEndpoints_ok (r : Registry) (si : ServiceInstance) (eps : List String)
    (hok : ∀ e ∈ eps, (endpointParts e).isOk = true ∧
      ∃ b, r.cli.DeregisterInstance (deregisterParamOf r si e) = .ok b) :
    deregisterEndpoints r si eps =
      (eps.map (fun e => Call.deregister (deregisterParamOf r si e)), none) := by
  induction eps with
  | nil => simp [deregisterEndpoints]
  | cons e rest ih =>
    obtain ⟨hparts, b, hb⟩ := hok e (by simp)
    obtain ⟨s, hs, p, hsp⟩ := endpointParts_ok_exists e hparts
    have hparam : deregisterParamOf r si e = mkDeregisterParam r si s hs p := by
      simp [deregisterParamOf, hsp]
    rw [deregisterEndpoints_cons_ok r si e rest s hs p hsp]
    rw [hparam] at hb
    rw [hb]
    rw [ih (fun e' he' => hok e' (by simp [he']))]
    simp [hparam]

/-- C1: for every instance with a non-empty name whose endpoints all
validate, and a client whose register calls succeed, Register issues exactly
one register call per endpoint, in order, whose parameter carries the parsed
host and port, the service name composed of instance name, a dot and the
scheme, the configured weight, the enable, healthy and ephemeral flags set,
the merged metadata, and the configured cluster and group (all fixed by
mkRegisterParam); in particular the pay scenario with default options
produces exactly the expected call. -/
theorem reg_call_per_endpoint :
    (∀ (r : Registry) (si : ServiceInstance),
      si.Name ≠ "" →
      (∀ p, ∃ b, r.cli.RegisterInstance p = .ok b) →
      (∀ e ∈ si.Endpoints, (endpointParts e).isOk = true) →
      Register r si =
        (si.Endpoints.map (fun e => Call.register (registerParamOf r si e)), none)) ∧
    Register (New alwaysOkClient [])
      { ID := "", Name := "pay", Version := "v1", Metadata := [],
        Endpoints := ["grpc://10.0.0.1:9000"] } =
    ([Call.register
        { Ip := "10.0.0.1", Port := 9000, ServiceName := "pay.grpc", Weight := 100,
          Enable := true, Healthy := true, Ephemeral := true,
          Metadata := [("kind", "grpc"), ("version", "v1")],
          ClusterName := "DEFAULT", GroupName := "DEFAULT_GROUP" }], none) := by
  constructor
  · intro r si hn hcli hep
    rw [Register, if_neg hn]
    exact registerEndpoints_ok r si si.Endpoints (fun e he => ⟨hep e he, hcli _⟩)
  · decide

/-- Witness for C1: the scenario discharged through the universal part. -/
theorem reg_call_per_endpoint_witness :
    Register (New alwaysOkClient [])
      { ID := "", Name := "pay", Version := "v1", Metadata := [],
        Endpoints := ["grpc://10.0.0.1:9000"] } =
    ([Call.register
        { Ip := "10.0.0.1", Port := 9000, ServiceName := "pay.grpc", Weight := 100,
          Enable := true, Healthy := true, Ephemeral := true,
          Metadata := [("kind", "grpc"), ("version", "v1")],
          ClusterName := "DEFAULT", GroupName := "DEFAULT_GROUP" }], none) :=
  (reg_call_per_endpoint.1 (New alwaysOkClient [])
      { ID := "", Name := "pay", Version := "v1", Metadata := [],
        Endpoints := ["grpc://10.0.0.1:9000"] }
      (by decide) (fun p => ⟨true, rfl⟩) (by decide)).trans (by decide)

/-- C2: for every instance whose endpoints validate and a client whose
deregister calls succeed, Deregister issues exactly one deregister call per
endpoint, keyed by name, dot, scheme, the configured cluster and group, and
ephemeral true; the two-endpoint svc scenario uses service names svc.grpc
and svc.http. -/
theorem dereg_call_per_endpoint :
    (∀ (r : Registry) (si : ServiceInstance),
      (∀ p, ∃ b, r.cli.DeregisterInstance p = .ok b) →
      (∀ e ∈ si.Endpoints, (endpointParts e).isOk = true) →
      Deregister r si =
        (si.Endpoints.map (fun e => Call.deregister (deregisterParamOf r si e)), none) ∧
      ∀ e ∈ si.Endpoints,
        (deregisterParamOf r si e).ServiceName = si.Name ++ "." ++ schemeOf e ∧
        (deregisterParamOf r si e).Cluster = r.opts.cluster ∧
        (deregisterParamOf r si e).GroupName = r.opts.group ∧
        (deregisterParamOf r si e).Ephemeral = true) ∧
    Deregister (New alwaysOkClient [])
      { ID := "", Name := "svc", Version := "", Metadata := [],
        Endpoints := ["grpc://h:1", "http://h:2"] } =
    ([Call.deregister
        { Ip := "h", Port := 1, ServiceName := "svc.grpc", GroupName := "DEFAULT_GROUP",
          Cluster := "DEFAULT", Ephemeral := true },
      Call.deregister
        { Ip := "h", Port := 2, ServiceName := "svc.http", GroupName := "DEFAULT_GROUP",
          Cluster := "DEFAULT", Ephemeral := true }], none) := by
  constructor
  · intro r si hcli hep
    constructor
    · rw [Deregister]
      exact deregisterEndpoints_ok r si si.Endpoints (fun e he => ⟨hep e he, hcli _⟩)
    · intro e he
      obtain ⟨s, hs, p, hsp⟩ := endpointParts_ok_exists e (hep e he)
      simp [deregisterParamOf, schemeOf, hsp, mkDeregisterParam]
  · decide

/-- Witness for C2: the two-endpoint scenario discharged through the
universal part. -/
theorem dereg_call_per_endpoint_witness :
    Deregister (New alwaysOkClient [])
      { ID := "", Name := "svc", Version := "", Metadata := [],
        Endpoints := ["grpc://h:1", "http://h:2"] } =
    ([Call.deregister
        { Ip := "h", Port := 1, ServiceName := "svc.grpc", GroupName := "DEFAULT_GROUP",
          Cluster := "DEFAULT", Ephemeral := true },
      Call.deregister
        { Ip := "h", Port := 2, ServiceName := "svc.http", GroupName := "DEFAULT_GROUP",
          Cluster := "DEFAULT", Ephemeral := true }], none) :=
  (((dereg_call_per_endpoint.1 (New alwaysOkClient [])
      { ID := "", Name := "svc", Version := "", Metadata := [],
        Endpoints := ["grpc://h:1", "http://h:2"] }
      (fun p => ⟨true, rfl⟩) (by decide)).1).trans (by decide))

/-- C6: Register on any instance with an empty name returns the missing-name
error and issues no client calls, whatever the endpoints, version and
metadata are. -/
theorem register_empty_name_fails :
    ∀ (r : Registry) (si : ServiceInstance), si.Name = "" →
      Register r si = ([], some GoError.serviceInstanceNameEmpty) := by
  intro r si h
  simp [Register, h]

/-- Witness for C6: an empty-name instance with endpoints, version and
metadata present. -/
theorem register_empty_name_fails_witness :
    Register (New alwaysOkClient [])
      { ID := "i", Name := "", Version := "v", Metadata := [("a", "b")],
        Endpoints := ["grpc://h:1"] } =
    ([], some GoError.serviceInstanceNameEmpty) :=
  register_empty_name_fails (New alwaysOkClient [])
    { ID := "i", Name := "", Version := "v", Metadata := [("a", "b")],
      Endpoints := ["grpc://h:1"] } rfl
/-- C5: endpoint validation in Register runs URL parse, then host-port
split, then port parse, the first failing stage's error aborting the whole
call with no client call for that endpoint (endpoints before it keep their
calls); a successfully parsed port becomes the registered Port; and the
hostonly scenario fails with the host-port-split error and zero calls. -/
theorem register_validation_aborts :
    (∀ (r : Registry) (si : ServiceInstance) (pre : List String) (e : String)
        (rest : List String) (err : GoError),
      si.Name ≠ "" →
      si.Endpoints = pre ++ e :: rest →
      (∀ e' ∈ pre, (endpointParts e').isOk = true ∧
        ∃ b, r.cli.RegisterInstance (registerParamOf r si e') = .ok b) →
      endpointParts e = .error err →
      Register r si =
        (pre.map (fun e' => Call.register (registerParamOf r si e')), some err)) ∧
    (∀ (e : String) (err : GoError), endpointParts e = .error err →
      urlParse e = .error err ∨
      (∃ u, urlParse e = .ok u ∧ splitHostPort u.Host = .error err) ∨
      (∃ u h p, urlParse e = .ok u ∧ splitHostPort u.Host = .ok (h, p) ∧
        atoi p = .error err)) ∧
    (∀ (r : Registry) (si : ServiceInstance) (e s h : String) (p : Int),
      endpointParts e = .ok (s, h, p) →
      (registerParamOf r si e).Port = uint64OfInt p) ∧
    Register (New alwaysOkClient [])
      { ID := "", Name := "x", Version := "", Metadata := [],
        Endpoints := ["grpc://hostonly"] } =
    ([], some (GoError.addrError "missing port in address" "hostonly")) := by
  refine ⟨?_, ?_, ?_, by decide⟩
  · intro r si pre e rest err hn heps hpre herr
    rw [Register, if_neg hn, heps,
      registerEndpoints_append r si pre (e :: rest) hpre,
      registerEndpoints_cons_err r si e rest err herr]
    simp
  · intro e err herr
    unfold endpointParts at herr
    cases hu : urlParse e with
    | error e0 =>
      rw [hu] at herr; dsimp only at herr
      simp only [Except.error.injEq] at herr
      subst herr
      exact Or.inl rfl
    | ok u =>
      rw [hu] at herr; dsimp only at herr
      cases hs : splitHostPort u.Host with
      | error e0 =>
        rw [hs] at herr; dsimp only at herr
        simp only [Except.error.injEq] at herr
        subst herr
        exact Or.inr (Or.inl ⟨u, rfl, hs⟩)
      | ok hostport =>
        obtain ⟨host, port⟩ := hostport
        rw [hs] at herr; dsimp only at herr
        cases ha : atoi port with
        | error e0 =>
          rw [ha] at herr; dsimp only at herr
          simp only [Except.error.injEq] at herr
          subst herr
          exact Or.inr (Or.inr ⟨u, host, port, rfl, hs, ha⟩)
        | ok p0 => rw [ha] at herr; dsimp only at herr; simp at herr
  · intro r si e s h p hp
    simp [registerParamOf, hp, mkRegisterParam]

/-- Witness for C5: an instance whose first endpoint registers and whose
second lacks a port, discharged through the abort part. -/
theorem register_validation_aborts_witness :
    Register (New alwaysOkClient [])
      { ID := "", Name := "x", Version := "", Metadata := [],
        Endpoints := ["grpc://h:1", "grpc://hostonly"] } =
    ([Call.register
        { Ip := "h", Port := 1, ServiceName := "x.grpc", Weight := 100,
          Enable := true, Healthy := true, Ephemeral := true,
          Metadata := [("kind", "grpc"), ("version", "")],
          ClusterName := "DEFAULT", GroupName := "DEFAULT_GROUP" }],
      some (GoError.addrError "missing port in address" "hostonly")) :=
  (register_validation_aborts.1 (New alwaysOkClient [])
      { ID := "", Name := "x", Version := "", Metadata := [],
        Endpoints := ["grpc://h:1", "grpc://hostonly"] }
      ["grpc://h:1"] "grpc://hostonly" [] (GoError.addrError "missing port in address" "hostonly")
      (by decide) rfl
      (fun e' he' => ⟨by simp at he'; subst he'; decide,
        ⟨true, by simp at he'; subst he'; rfl⟩⟩)
      (by decide)).trans (by decide)

/-- C7: when the client's register call fails on an endpoint, Register stops
there (endpoints after it are not processed), returns the wrapped error
naming the failing endpoint, the calls already issued for earlier endpoints
remain in the trace, and no deregister call ever appears in the trace (no
rollback). -/
theorem register_client_failure_stops_no_rollback :
    ∀ (r : Registry) (si : ServiceInstance) (pre : List String) (e : String)
      (rest : List String) (msg s h : String) (p : Int),
      si.Name ≠ "" →
      si.Endpoints = pre ++ e :: rest →
      (∀ e' ∈ pre, (endpointParts e').isOk = true ∧
        ∃ b, r.cli.RegisterInstance (registerParamOf r si e') = .ok b) →
      endpointParts e = .ok (s, h, p) →
      r.cli.RegisterInstance (mkRegisterParam r si s h p) = .error msg →
      Register r si =
        (pre.map (fun e' => Call.register (registerParamOf r si e')) ++
          [Call.register (mkRegisterParam r si s h p)],
         some (GoError.wrapped ("RegisterInstance err: " ++ msg ++ ", " ++ e))) ∧
      ∀ c ∈ (Register r si).1, ∃ q, c = Call.register q := by
  intro r si pre e rest msg s h p hn heps hpre hparts hfail
  have hmain : Register r si =
      (pre.map (fun e' => Call.register (registerParamOf r si e')) ++
        [Call.register (mkRegisterParam r si s h p)],
       some (GoError.wrapped ("RegisterInstance err: " ++ msg ++ ", " ++ e))) := by
    rw [Register, if_neg hn, heps,
      registerEndpoints_append r si pre (e :: rest) hpre,
      registerEndpoints_cons_ok r si e rest s h p hparts, hfail]
  refine ⟨hmain, ?_⟩
  intro c hc
  rw [hmain] at hc
  simp only [List.mem_append, List.mem_map, List.mem_singleton] at hc
  rcases hc with ⟨e', _, he'⟩ | hc
  · exact ⟨registerParamOf r si e', he'.symm⟩
  · exact ⟨mkRegisterParam r si s h p, hc⟩

/-- Witness for C7: a client failing on service name a.http; the grpc
endpoint's registration stays in the trace, the error wraps the failing
endpoint, and the trace has no deregister call. -/
theorem register_client_failure_stops_no_rollback_witness :
    Register { opts := (New failHttpClient []).opts, cli := failHttpClient }
      { ID := "", Name := "a", Version := "", Metadata := [],
        Endpoints := ["grpc://h:1", "http://h:2"] } =
    ([Call.register
        { Ip := "h", Port := 1, ServiceName := "a.grpc", Weight := 100,
          Enable := true, Healthy := true, Ephemeral := true,
          Metadata := [("kind", "grpc"), ("version", "")],
          ClusterName := "DEFAULT", GroupName := "DEFAULT_GROUP" },
      Call.register
        { Ip := "h", Port := 2, ServiceName := "a.http", Weight := 100,
          Enable := true, Healthy := true, Ephemeral := true,
          Metadata := [("kind", "http"), ("version", "")],
          ClusterName := "DEFAULT", GroupName := "DEFAULT_GROUP" }],
      some (GoError.wrapped "RegisterInstance err: boom, http://h:2")) :=
  ((register_client_failure_stops_no_rollback
      { opts := (New failHttpClient []).opts, cli := failHttpClient }
      { ID := "", Name := "a", Version := "", Metadata := [],
        Endpoints := ["grpc://h:1", "http://h:2"] }
      ["grpc://h:1"] "http://h:2" [] "boom" "http" "h" 2
      (by decide) rfl
      (fun e' he' => ⟨by simp at he'; subst he'; decide,
        ⟨true, by simp at he'; subst he'; decide⟩⟩)
      (by decide) (by decide)).1).trans (by decide)

/-- C10: Deregister performs no name validation: on an empty-name instance
with validating endpoints and a succeeding client it does not return the
missing-name error and issues one deregister call per endpoint whose service
name is a dot followed by the endpoint's scheme. -/
theorem deregister_skips_name_validation :
    ∀ (r : Registry) (si : ServiceInstance),
      si.Name = "" →
      (∀ p, ∃ b, r.cli.DeregisterInstance p = .ok b) →
      (∀ e ∈ si.Endpoints, (endpointParts e).isOk = true) →
      Deregister r si =
        (si.Endpoints.map (fun e => Call.deregister (deregisterParamOf r si e)), none) ∧
      (Deregister r si).2 ≠ some GoError.serviceInstanceNameEmpty ∧
      ∀ e ∈ si.Endpoints, (deregisterParamOf r si e).ServiceName = "." ++ schemeOf e := by
  intro r si hname hcli hep
  have hmain : Deregister r si =
      (si.Endpoints.map (fun e => Call.deregister (deregisterParamOf r si e)), none) := by
    rw [Deregister]
    exact deregisterEndpoints_ok r si si.Endpoints (fun e he => ⟨hep e he, hcli _⟩)
  refine ⟨hmain, by rw [hmain]; simp, ?_⟩
  intro e he
  obtain ⟨s, hs, p, hsp⟩ := endpointParts_ok_exists e (hep e he)
  have hdot : ("" : String) ++ "." = "." := rfl
  simp [deregisterParamOf, schemeOf, hsp, mkDeregisterParam, hname, hdot]

/-- Witness for C10: an empty-name instance with one endpoint deregisters
with service name dot grpc. -/
theorem deregister_skips_name_validation_witness :
    Deregister (New alwaysOkClient [])
      { ID := "", Name := "", Version := "", Metadata := [],
        Endpoints := ["grpc://h:9"] } =
    ([Call.deregister
        { Ip := "h", Port := 9, ServiceName := ".grpc", GroupName := "DEFAULT_GROUP",
          Cluster := "DEFAULT", Ephemeral := true }], none) :=
  ((deregister_skips_name_validation (New alwaysOkClient [])
      { ID := "", Name := "", Version := "", Metadata := [],
        Endpoints := ["grpc://h:9"] }
      rfl (fun p => ⟨true, rfl⟩) (by decide)).1).trans (by decide)
/-- Lookup after a single map assignment: the assigned key reads the new
value, every other key is unchanged. -/
theorem mapLookup_mapInsert (m : List (String × String)) (k0 v0 k : String) :
    mapLookup (mapInsert m k0 v0) k = if k0 = k then some v0 else mapLookup m k := by
  induction m with
  | nil => by_cases h : k0 = k <;> simp [mapInsert, mapLookup, List.find?, h]
  | cons a m ih =>
    by_cases h1 : a.1 = k0
    · by_cases h2 : k0 = k <;> simp [mapInsert, mapLookup, List.find?, h1, h2]
    · by_cases h2 : a.1 = k
      · have h3 : ¬k0 = k := fun hh => h1 (h2.trans hh.symm)
        simp only [mapInsert, if_neg h1]
        rw [if_neg h3]
        simp [mapLookup, List.find?, h2]
      · simp only [mapInsert, if_neg h1]
        simp [mapLookup, List.find?, h2] at ih ⊢
        exact ih

/-- A key that is not among a map's keys has no binding. -/
theorem mapLookup_eq_none_of_not_mem (m : List (String × String)) (k : String)
    (h : k ∉ m.map Prod.fst) : mapLookup m k = none := by
  induction m with
  | nil => rfl
  | cons a m ih =>
    rw [List.map_cons, List.mem_cons] at h
    push_neg at h
    have h1 : ¬a.1 = k := fun hh => h.1 hh.symm
    have h2 := ih h.2
    simp [mapLookup, List.find?, h1] at h2 ⊢
    exact h2

/-- Folding map assignments over a base map: on a key bound by the overlay
the overlay wins, otherwise the base answers (keys of the overlay unique, as
in a Go map). -/
theorem foldl_mapInsert_lookup (md : List (String × String))
    (base : List (String × String)) (k : String)
    (hnd : (md.map Prod.fst).Nodup) :
    mapLookup (md.foldl (fun acc kv => mapInsert acc kv.1 kv.2) base) k =
      match mapLookup md k with
      | some w => some w
      | none => mapLookup base k := by
  induction md generalizing base with
  | nil => rfl
  | cons kv md ih =>
    have hnd' := hnd
    simp only [List.map_cons, List.nodup_cons] at hnd'
    obtain ⟨hk, hndmd⟩ := hnd'
    rw [List.foldl_cons, ih (mapInsert base kv.1 kv.2) hndmd]
    by_cases h : kv.1 = k
    · subst h
      rw [mapLookup_eq_none_of_not_mem md kv.1 hk, mapLookup_mapInsert]
      simp [mapLookup, List.find?]
    · rw [mapLookup_mapInsert, if_neg h]
      have : mapLookup (kv :: md) k = mapLookup md k := by
        have : ¬kv.1 = k := h
        simp [mapLookup, List.find?, this]
      rw [this]

/-- C8: the metadata Register sends starts from kind = scheme and
version = instance version and overlays the instance metadata, the instance
metadata winning on every key collision; and this merged map is exactly the
register call's Metadata for every validating endpoint. -/
theorem register_metadata_overlay :
    (∀ (s v : String) (md : List (String × String)) (k : String),
      (md.map Prod.fst).Nodup →
      mapLookup (mergeMeta s v md) k =
        match mapLookup md k with
        | some w => some w
        | none => mapLookup [("kind", s), ("version", v)] k) ∧
    ∀ (r : Registry) (si : ServiceInstance) (e s h : String) (p : Int),
      endpointParts e = .ok (s, h, p) →
      (registerParamOf r si e).Metadata = mergeMeta s si.Version si.Metadata := by
  constructor
  · intro s v md k hnd
    exact foldl_mapInsert_lookup md [("kind", s), ("version", v)] k hnd
  · intro r si e s h p hp
    simp [registerParamOf, hp, mkRegisterParam]

/-- Witness for C8: a metadata map overriding kind and adding a key; the
merged map reads the override for kind, keeps version from the base, and
reads the extra key. -/
theorem register_metadata_overlay_witness :
    mapLookup (mergeMeta "grpc" "v1" [("kind", "K"), ("x", "y")]) "kind" = some "K" ∧
    mapLookup (mergeMeta "grpc" "v1" [("kind", "K"), ("x", "y")]) "version" = some "v1" ∧
    mapLookup (mergeMeta "grpc" "v1" [("kind", "K"), ("x", "y")]) "x" = some "y" :=
  ⟨(register_metadata_overlay.1 "grpc" "v1" [("kind", "K"), ("x", "y")] "kind"
      (by decide)).trans (by decide),
   (register_metadata_overlay.1 "grpc" "v1" [("kind", "K"), ("x", "y")] "version"
      (by decide)).trans (by decide),
   (register_metadata_overlay.1 "grpc" "v1" [("kind", "K"), ("x", "y")] "x"
      (by decide)).trans (by decide)⟩

/-- C3: GetService issues exactly one query, with the requested name, the
configured group and healthy-only set; on success every record is converted
to a generic instance keeping id and service name, reading version from the
metadata (empty when absent), and with a single endpoint built from the
metadata kind (the configured default kind when the key is absent), the
record's ip and its port. -/
theorem getService_query_and_reconstruction :
    ∀ (r : Registry) (name : String),
      (GetService r name).1 =
        [Call.select { ServiceName := name, GroupName := r.opts.group, HealthyOnly := true }] ∧
      ∀ res, r.cli.SelectInstances
          { ServiceName := name, GroupName := r.opts.group, HealthyOnly := true } = .ok res →
        (GetService r name).2 = .ok (res.map (instanceToService r)) ∧
        ∀ i ∈ res,
          (instanceToService r i).ID = i.InstanceId ∧
          (instanceToService r i).Name = i.ServiceName ∧
          (instanceToService r i).Version = (mapLookup i.Metadata "version").getD "" ∧
          (instanceToService r i).Endpoints =
            [(match mapLookup i.Metadata "kind" with
              | some k => k
              | none => r.opts.kind) ++ "://" ++ i.Ip ++ ":" ++ toString i.Port] := by
  intro r name
  constructor
  · rw [GetService]
    cases h : r.cli.SelectInstances
        { ServiceName := name, GroupName := r.opts.group, HealthyOnly := true } <;> simp
  · intro res hres
    constructor
    · rw [GetService]
      rw [hres]
    · intro i hi
      refine ⟨rfl, rfl, rfl, ?_⟩
      simp [instanceToService]

/-- Witness for C3: a registry over a two-record client; the first record
has no kind key and falls back to the default kind grpc, the second reads
kind http and version 2. -/
theorem getService_query_and_reconstruction_witness :
    (GetService (New twoRecClient []) "svc.grpc").1 =
      [Call.select
        { ServiceName := "svc.grpc", GroupName := "DEFAULT_GROUP",
          HealthyOnly := true }] ∧
    (GetService (New twoRecClient []) "svc.grpc").2 =
      .ok [{ ID := "i1", Name := "svc.grpc", Version := "", Metadata := [],
             Endpoints := ["grpc://1.2.3.4:9000"] },
           { ID := "i2", Name := "svc.grpc", Version := "2",
             Metadata := [("kind", "http"), ("version", "2")],
             Endpoints := ["http://1.2.3.5:8000"] }] :=
  ⟨(getService_query_and_reconstruction (New twoRecClient []) "svc.grpc").1,
   (((getService_query_and_reconstruction (New twoRecClient []) "svc.grpc").2
      [{ InstanceId := "i1", ServiceName := "svc.grpc", Ip := "1.2.3.4", Port := 9000,
         Healthy := true, Metadata := [] },
       { InstanceId := "i2", ServiceName := "svc.grpc", Ip := "1.2.3.5", Port := 8000,
         Healthy := true, Metadata := [("kind", "http"), ("version", "2")] }]
      (by decide)).1).trans (by decide)⟩
/-- A canonical endpoint validates. -/
theorem canonical_isOk (e : String) (h : canonicalEndpoint e = true) :
    (endpointParts e).isOk = true := by
  unfold canonicalEndpoint at h
  cases hp : endpointParts e with
  | error err => rw [hp] at h; dsimp only at h; simp at h
  | ok v => rfl

/-- The group of every register call parameter is the configured group. -/
theorem registerParamOf_GroupName (r : Registry) (si : ServiceInstance) (x : String) :
    (registerParamOf r si x).GroupName = r.opts.group := by
  cases h : endpointParts x with
  | error err => simp [registerParamOf, h, mkRegisterParam]
  | ok v => obtain ⟨s, hh, p⟩ := v; simp [registerParamOf, h, mkRegisterParam]

/-- Every register call parameter is marked healthy. -/
theorem registerParamOf_Healthy (r : Registry) (si : ServiceInstance) (x : String) :
    (registerParamOf r si x).Healthy = true := by
  cases h : endpointParts x with
  | error err => simp [registerParamOf, h, mkRegisterParam]
  | ok v => obtain ⟨s, hh, p⟩ := v; simp [registerParamOf, h, mkRegisterParam]

/-- The service name of every register call parameter is the instance name,
a dot and the endpoint's scheme. -/
theorem registerParamOf_ServiceName (r : Registry) (si : ServiceInstance) (x : String) :
    (registerParamOf r si x).ServiceName = si.Name ++ "." ++ schemeOf x := by
  cases h : endpointParts x with
  | error err => simp [registerParamOf, schemeOf, h, mkRegisterParam]
  | ok v => obtain ⟨s, hh, p⟩ := v; simp [registerParamOf, schemeOf, h, mkRegisterParam]

/-- The store built from a trace of register calls only. -/
theorem storeOfCalls_map (g : String → RegisterInstanceParam) (l : List String) :
    storeOfCalls (l.map (fun x => Call.register (g x))) =
      l.map (fun x => ((g x).GroupName, instOfRegParam (g x))) := by
  induction l with
  | nil => rfl
  | cons x l ih => simp [storeOfCalls, ih]

/-- String equality testing cancels a shared front part. -/
theorem beq_append_cancel_left (a b c : String) : ((a ++ b) == (a ++ c)) = (b == c) := by
  cases hbc : b == c with
  | true =>
    have hb : b = c := eq_of_beq hbc
    subst hb
    simp
  | false =>
    have hb : b ≠ c := ne_of_beq_false hbc
    have hne : a ++ b ≠ a ++ c := by
      intro hh
      apply hb
      have hd := congrArg String.data hh
      simp only [String.data_append] at hd
      exact String.ext (List.append_cancel_left hd)
    simp [beq_eq_false_iff_ne.mpr hne]

/-- Converting back the stored record of a canonical endpoint's registration
(for an instance without metadata of its own) rebuilds exactly that
endpoint string. -/
theorem conv_endpoint_of_canonical (o : options) (cli cli' : INamingClient)
    (idv name ver : String) (eps : List String) (x : String)
    (hx : canonicalEndpoint x = true) :
    (instanceToService ⟨o, cli'⟩
      (instOfRegParam
        (registerParamOf ⟨o, cli⟩ ⟨idv, name, ver, [], eps⟩ x))).Endpoints = [x] := by
  unfold canonicalEndpoint at hx
  cases hp : endpointParts x with
  | error err => rw [hp] at hx; dsimp only at hx; simp at hx
  | ok v =>
    obtain ⟨s, h, p⟩ := v
    rw [hp] at hx; dsimp only at hx
    have heq := eq_of_beq hx
    have hkind : mapLookup [("kind", s), ("version", ver)] "kind" = some s := rfl
    simp [registerParamOf, hp, instanceToService, instOfRegParam, mkRegisterParam,
      mergeMeta, hkind, heq]

/-- C4: registering an instance (non-empty name, canonical endpoints, no
instance metadata) against an always-succeeding client and then querying a
faithful in-memory store of the issued calls under each composed service
name returns instances whose single reconstructed endpoint strings are
exactly the originally supplied endpoints of that scheme. -/
theorem register_getService_roundtrip :
    ∀ (o : options) (idv name ver : String) (eps : List String),
      name ≠ "" →
      (∀ e ∈ eps, canonicalEndpoint e = true) →
      (Register ⟨o, alwaysOkClient⟩ ⟨idv, name, ver, [], eps⟩).2 = none ∧
      ∀ e ∈ eps, ∃ insts,
        (GetService
            ⟨o, fakeSelectClient (storeOfCalls
              (Register ⟨o, alwaysOkClient⟩ ⟨idv, name, ver, [], eps⟩).1)⟩
            (name ++ "." ++ schemeOf e)).2 = Except.ok insts ∧
        insts.map (fun inst => inst.Endpoints) =
          (eps.filter (fun x => schemeOf x == schemeOf e)).map (fun x => [x]) := by
  intro o idv name ver eps hn hcan
  have hio : ∀ x ∈ eps, (endpointParts x).isOk = true ∧
      ∃ b, alwaysOkClient.RegisterInstance
        (registerParamOf ⟨o, alwaysOkClient⟩ ⟨idv, name, ver, [], eps⟩ x) = .ok b :=
    fun x hx => ⟨canonical_isOk x (hcan x hx), ⟨true, rfl⟩⟩
  have hreg : Register ⟨o, alwaysOkClient⟩ ⟨idv, name, ver, [], eps⟩ =
      (eps.map (fun x => Call.register
        (registerParamOf ⟨o, alwaysOkClient⟩ ⟨idv, name, ver, [], eps⟩ x)), none) := by
    rw [Register, if_neg hn]
    exact registerEndpoints_ok _ _ _ hio
  refine ⟨by rw [hreg], ?_⟩
  intro e he
  rw [hreg]
  simp only []
  rw [storeOfCalls_map]
  refine ⟨_, rfl, ?_⟩
  rw [List.filter_map]
  have hpt : ∀ x ∈ eps,
      ((fun gi : String × Instance =>
          gi.1 == o.group && (gi.2.ServiceName == name ++ "." ++ schemeOf e) &&
            (!true || gi.2.Healthy)) ∘
        (fun x => ((registerParamOf ⟨o, alwaysOkClient⟩ ⟨idv, name, ver, [], eps⟩ x).GroupName,
          instOfRegParam (registerParamOf ⟨o, alwaysOkClient⟩ ⟨idv, name, ver, [], eps⟩ x)))) x =
      (fun x => schemeOf x == schemeOf e) x := by
    intro x hx
    simp only [Function.comp, instOfRegParam, registerParamOf_GroupName,
      registerParamOf_ServiceName, registerParamOf_Healthy]
    rw [beq_append_cancel_left]
    simp
  rw [List.filter_congr hpt]
  rw [List.map_map, List.map_map, List.map_map]
  refine List.map_congr_left ?_
  intro x hx
  have hxeps : x ∈ eps := List.mem_of_mem_filter hx
  simp only [Function.comp]
  exact conv_endpoint_of_canonical o alwaysOkClient _ idv name ver eps x (hcan x hxeps)
/-- Witness for C4: a two-endpoint instance (grpc and http) with default
options, instantiated at the grpc endpoint. -/
theorem register_getService_roundtrip_witness :
    (Register
      ⟨{ pfx := "/microservices", weight := 100, cluster := "DEFAULT",
         group := "DEFAULT_GROUP", kind := "grpc" }, alwaysOkClient⟩
      ⟨"", "pay", "v1", [], ["grpc://10.0.0.1:9000", "http://10.0.0.1:8000"]⟩).2 = none ∧
    ∃ insts,
      (GetService
          ⟨{ pfx := "/microservices", weight := 100, cluster := "DEFAULT",
             group := "DEFAULT_GROUP", kind := "grpc" },
           fakeSelectClient (storeOfCalls
            (Register
              ⟨{ pfx := "/microservices", weight := 100, cluster := "DEFAULT",
                 group := "DEFAULT_GROUP", kind := "grpc" }, alwaysOkClient⟩
              ⟨"", "pay", "v1", [], ["grpc://10.0.0.1:9000", "http://10.0.0.1:8000"]⟩).1)⟩
          ("pay" ++ "." ++ schemeOf "grpc://10.0.0.1:9000")).2 = Except.ok insts ∧
      insts.map (fun inst => inst.Endpoints) =
        (["grpc://10.0.0.1:9000", "http://10.0.0.1:8000"].filter
          (fun x => schemeOf x == schemeOf "grpc://10.0.0.1:9000")).map (fun x => [x]) :=
  ⟨(register_getService_roundtrip
      { pfx := "/microservices", weight := 100, cluster := "DEFAULT",
        group := "DEFAULT_GROUP", kind := "grpc" }
      "" "pay" "v1" ["grpc://10.0.0.1:9000", "http://10.0.0.1:8000"]
      (by decide) (by decide)).1,
   (register_getService_roundtrip
      { pfx := "/microservices", weight := 100, cluster := "DEFAULT",
        group := "DEFAULT_GROUP", kind := "grpc" }
      "" "pay" "v1" ["grpc://10.0.0.1:9000", "http://10.0.0.1:8000"]
      (by decide) (by decide)).2 "grpc://10.0.0.1:9000" (by decide)⟩
